import Mathlib

/-
Shallow embedding of the consensus core of the 3SF repository
(high_level/common/common.py, high_level/common/ffg.py,
high_level/protocols/rlmd/helpers.py, ga_based/helpers.py,
pyspec/beacon_chain.py) together with theorems settling the frozen
claims about it.

Persistent collections (pyrsistent PSet / PMap, wrapped by the
pythonic_code_generic module, which is not part of src/) are embedded as
lists: a PSet is a list considered up to membership and a PMap is an
association list whose lookup takes the first matching key.  Machine
integers do not occur: all Python ints in play (slots, times, weights)
are non-negative, so they are embedded as Nat.
-/

namespace TSF

/-- Hashes are opaque identifiers (data_structures.py `Hash`). -/
abbrev Hash := Nat

/-- Validator identities are opaque and totally ordered (data_structures.py `NodeIdentity`). -/
abbrev NodeIdentity := Nat

/-- Modelled from the spec: signature verification is an external interface
(`verify_signature(SignedVote) → bool`, stubs module absent from src/), so a
signature is embedded as the outcome the external verifier would return for it. -/
abbrev Signature := Bool

/-- Block bodies are opaque to the core (data_structures.py `BlockBody`). -/
abbrev BlockBody := Nat

/-- Checkpoint of data_structures.py: block hash, FFG (checkpoint) slot, block slot. -/
structure Checkpoint where
  block_hash : Hash
  chkp_slot : Nat
  block_slot : Nat
deriving DecidableEq, Repr

/-- VoteMessage of data_structures.py. -/
structure VoteMessage where
  slot : Nat
  head_hash : Hash
  ffg_source : Checkpoint
  ffg_target : Checkpoint
deriving DecidableEq, Repr

/-- SignedVoteMessage of data_structures.py. -/
structure SignedVoteMessage where
  message : VoteMessage
  signature : Signature
  sender : NodeIdentity
deriving DecidableEq, Repr

/-- Block of data_structures.py. -/
structure Block where
  parent_hash : Hash
  slot : Nat
  votes : List SignedVoteMessage
  body : BlockBody
deriving DecidableEq, Repr

/-- NodePhase of data_structures.py. -/
inductive NodePhase where
  | PROPOSE
  | VOTE
  | CONFIRM
  | MERGE
deriving DecidableEq, Repr

/-- ValidatorBalances = PMap[NodeIdentity, int], embedded as an association list. -/
abbrev ValidatorBalances := List (NodeIdentity × Nat)

/-- Configuration of data_structures.py.  The two function fields embed the
external interfaces consumed by the core (spec section 6): `block_hash_fn` is the
deterministic block-hashing oracle and `validator_set_for_slot_fn` the stake
oracle `validator_set_for_slot(Block, slot)`; both are fixed at startup. -/
structure Configuration where
  delta : Nat
  genesis : Block
  eta : Nat
  k : Nat
  block_hash_fn : Block → Hash
  validator_set_for_slot_fn : Block → Nat → ValidatorBalances

/-- CommonNodeState of data_structures.py. -/
structure CommonNodeState where
  configuration : Configuration
  identity : NodeIdentity
  current_slot : Nat
  view_blocks : List (Hash × Block)
  view_votes : List SignedVoteMessage
  chava : Block

/-- NodeState of rlmd_data_structures.py. -/
structure NodeState where
  common : CommonNodeState
  current_phase : NodePhase
  buffer_votes : List SignedVoteMessage
  buffer_blocks : List (Hash × Block)

/-! ### Pythonic collection primitives

Modelled from the spec: the `pset_*` / `pmap_*` / `pvector_*` wrappers live in
pythonic_code_generic.py, which is not under src/.  Their semantics (persistent
sets and maps from pyrsistent) is fixed by the spec's data model and by every
call site in src/: `pset_filter` takes the predicate first, `pset_map` preserves
multiplicity while `pset_map_to_pset` produces a set (deduplicates), `pmap_merge`
prefers the second map on key collisions, `pset_max` returns an element whose
key is maximal. -/

def pmap_get {α β : Type} [BEq α] (m : List (α × β)) (k : α) : Option β :=
  List.lookup k m

def pmap_has {α β : Type} [BEq α] (m : List (α × β)) (k : α) : Bool :=
  (pmap_get m k).isSome

def pmap_set {α β : Type} (m : List (α × β)) (k : α) (v : β) : List (α × β) :=
  (k, v) :: m

def pmap_keys {α β : Type} [DecidableEq α] (m : List (α × β)) : List α :=
  (m.map Prod.fst).dedup

def pmap_values {α β : Type} [DecidableEq α] [BEq α] (m : List (α × β)) : List β :=
  (pmap_keys m).filterMap (fun k => pmap_get m k)

def pmap_merge {α β : Type} (m1 m2 : List (α × β)) : List (α × β) :=
  m2 ++ m1

def pmap_get_empty {α β : Type} : List (α × β) := []

def pset_get_empty {α : Type} : List α := []

def pset_filter {α : Type} (p : α → Bool) (s : List α) : List α :=
  s.filter p

def pset_map {α β : Type} (f : α → β) (s : List α) : List β :=
  s.map f

def pset_map_to_pset {α β : Type} [DecidableEq β] (f : α → β) (s : List α) : List β :=
  (s.map f).dedup

def pset_sum (s : List Nat) : Nat := s.sum

def pset_add {α : Type} (s : List α) (x : α) : List α := x :: s

def pset_merge {α : Type} (s1 s2 : List α) : List α := s1 ++ s2

def pset_merge_flatten {α : Type} (ss : List (List α)) : List α := ss.flatten

def pset_is_empty {α : Type} (s : List α) : Bool := s.isEmpty

def pset_intersection {α : Type} [DecidableEq α] (s1 s2 : List α) : List α :=
  s1.filter (fun x => decide (x ∈ s2))

/-- Accumulator step of `pset_max_by`: replace the running maximum only when
the key strictly increases (so ties keep the earlier element, as Python's max). -/
def pset_max_step {α β : Type} [LinearOrder β] (key : α → β) (acc : Option α) (x : α) :
    Option α :=
  match acc with
  | none => some x
  | some m => if key m < key x then some x else some m

/-- Python's `max(iterable, key=...)`: the first element attaining the maximal
key, `none` on an empty collection (where Python raises). -/
def pset_max_by {α β : Type} [LinearOrder β] (s : List α) (key : α → β) : Option α :=
  s.foldl (pset_max_step key) none

/-! ### Stub interfaces (stubs.py, absent from src/) -/

/-- Modelled from the spec: `verify_signature(SignedVote) → bool` is external;
the embedded signature carries the verifier's outcome. -/
def verify_vote_signature (vote : SignedVoteMessage) : Bool :=
  vote.signature

/-- Modelled from the spec: `validator_set_for_slot(Block, slot) → ValidatorBalances`
is an external, deterministic stake oracle, provided through the configuration. -/
def get_validator_set_for_slot (b : Block) (slot : Nat) (node_state : CommonNodeState) :
    ValidatorBalances :=
  node_state.configuration.validator_set_for_slot_fn b slot

/-- Modelled from the spec: `hash_block(Block) → Hash` is the external
content-addressing oracle, provided through the configuration. -/
def block_hash (b : Block) (node_state : CommonNodeState) : Hash :=
  node_state.configuration.block_hash_fn b

/-! ### common.py -/

/-- genesis_checkpoint of common.py. -/
def genesis_checkpoint (node_state : CommonNodeState) : Checkpoint :=
  { block_hash := block_hash node_state.configuration.genesis node_state
    chkp_slot := 0
    block_slot := 0 }

/-- has_block_hash of common.py. -/
def has_block_hash (bh : Hash) (node_state : CommonNodeState) : Bool :=
  pmap_has node_state.view_blocks bh

/-- get_block_from_hash of common.py.  The Python function has the contract
`Requires(has_block_hash(block_hash, node_state))` and raises when it is
breached; the embedding returns `none` in that case (see the C7 theorems for
the faithful contract-checking treatment). -/
def get_block_from_hash (bh : Hash) (node_state : CommonNodeState) : Option Block :=
  pmap_get node_state.view_blocks bh

/-- has_parent of common.py. -/
def has_parent (block : Block) (node_state : CommonNodeState) : Bool :=
  has_block_hash block.parent_hash node_state

/-- get_parent of common.py (contract `Requires(has_parent ...)`, as `Option`). -/
def get_parent (block : Block) (node_state : CommonNodeState) : Option Block :=
  get_block_from_hash block.parent_hash node_state

/-- get_all_blocks of common.py. -/
def get_all_blocks (node_state : CommonNodeState) : List Block :=
  pmap_values node_state.view_blocks

/-- is_validator of common.py. -/
def is_validator (node : NodeIdentity) (validatorBalances : ValidatorBalances) : Bool :=
  pmap_has validatorBalances node

/-- validator_set_weight of common.py. -/
def validator_set_weight (validators : List NodeIdentity)
    (validatorBalances : ValidatorBalances) : Nat :=
  pset_sum
    (pset_map
      (fun v => (pmap_get validatorBalances v).getD 0)
      (pset_intersection (pmap_keys validatorBalances) validators))

/-- Fuel bound for the parent-walking recursions: one more than the number of
distinct hashes in view.  Any walk that terminates in Python visits at most the
whole view after its starting block, so this fuel computes the Python value on
every input on which Python terminates. -/
def view_fuel (node_state : CommonNodeState) : Nat :=
  (node_state.view_blocks.map Prod.fst).toFinset.card + 1

/-- is_complete_chain of common.py, structural recursion on fuel. -/
def is_complete_chain_fuel : Nat → Block → CommonNodeState → Bool
  | 0, _, _ => false
  | fuel + 1, block, node_state =>
    if block = node_state.configuration.genesis then
      true
    else
      match get_parent block node_state with
      | none => false
      | some parent => is_complete_chain_fuel fuel parent node_state

/-- is_complete_chain of common.py. -/
def is_complete_chain (block : Block) (node_state : CommonNodeState) : Bool :=
  is_complete_chain_fuel (view_fuel node_state) block node_state

/-- is_ancestor_descendant_relationship of ga_based/helpers.py (the high_level
modules import the same-named helper from common/helpers.py, which is not under
src/; the ga_based definition in src/ is the one embedded), structural
recursion on fuel. -/
def is_ancestor_descendant_relationship_fuel :
    Nat → Block → Block → CommonNodeState → Bool
  | 0, _, _, _ => false
  | fuel + 1, ancestor, descendant, node_state =>
    if ancestor = descendant then
      true
    else if descendant = node_state.configuration.genesis then
      false
    else
      match get_parent descendant node_state with
      | none => false
      | some parent => is_ancestor_descendant_relationship_fuel fuel ancestor parent node_state

/-- is_ancestor_descendant_relationship of ga_based/helpers.py. -/
def is_ancestor_descendant_relationship (ancestor descendant : Block)
    (node_state : CommonNodeState) : Bool :=
  is_ancestor_descendant_relationship_fuel (view_fuel node_state) ancestor descendant node_state

/-! ### ffg.py -/

/-- get_set_FFG_targets of ffg.py. -/
def get_set_FFG_targets (votes : List SignedVoteMessage) : List Checkpoint :=
  pset_map_to_pset (fun vote => vote.message.ffg_target) votes

/-- valid_FFG_vote of ffg.py.  Python evaluates `get_block_from_hash` on the
head, source and target hashes without first checking `has_block_hash`; the
total embedding returns false whenever one of the three lookups fails (the C7
theorems treat the breached contract faithfully). -/
def valid_FFG_vote (vote : SignedVoteMessage) (node_state : CommonNodeState) : Bool :=
  match get_block_from_hash vote.message.head_hash node_state,
      get_block_from_hash vote.message.ffg_source.block_hash node_state,
      get_block_from_hash vote.message.ffg_target.block_hash node_state with
  | some head_block, some source_block, some target_block =>
    verify_vote_signature vote &&
    is_validator vote.sender
      (get_validator_set_for_slot head_block vote.message.slot node_state) &&
    is_ancestor_descendant_relationship source_block target_block node_state &&
    decide (vote.message.ffg_source.chkp_slot < vote.message.ffg_target.chkp_slot) &&
    has_block_hash vote.message.ffg_source.block_hash node_state &&
    (source_block.slot == vote.message.ffg_source.block_slot) &&
    has_block_hash vote.message.ffg_target.block_hash node_state &&
    (target_block.slot == vote.message.ffg_target.block_slot)
  | _, _, _ => false

/-- is_FFG_vote_in_support_of_checkpoint_justification of ffg.py, with the
recursive call `is_justified_checkpoint(vote.message.ffg_source, node_state)`
abstracted into the parameter `is_just` (instantiated below). -/
def is_FFG_vote_in_support_of_checkpoint_justification_with
    (is_just : Checkpoint → Bool) (vote : SignedVoteMessage) (checkpoint : Checkpoint)
    (node_state : CommonNodeState) : Bool :=
  valid_FFG_vote vote node_state &&
  (vote.message.ffg_target.chkp_slot == checkpoint.chkp_slot) &&
  (match get_block_from_hash checkpoint.block_hash node_state,
       get_block_from_hash vote.message.ffg_target.block_hash node_state with
   | some checkpoint_block, some target_block =>
     is_ancestor_descendant_relationship checkpoint_block target_block node_state
   | _, _ => false) &&
  (match get_block_from_hash vote.message.ffg_source.block_hash node_state,
       get_block_from_hash checkpoint.block_hash node_state with
   | some source_block, some checkpoint_block =>
     is_ancestor_descendant_relationship source_block checkpoint_block node_state
   | _, _ => false) &&
  is_just vote.message.ffg_source

/-- filter_out_FFG_votes_not_in_FFG_support_of_checkpoint_justification of
ffg.py, parameterized like the support predicate. -/
def filter_out_FFG_votes_not_in_FFG_support_of_checkpoint_justification_with
    (is_just : Checkpoint → Bool) (votes : List SignedVoteMessage)
    (checkpoint : Checkpoint) (node_state : CommonNodeState) : List SignedVoteMessage :=
  pset_filter
    (fun vote =>
      is_FFG_vote_in_support_of_checkpoint_justification_with is_just vote checkpoint node_state)
    votes

/-- get_validators_in_FFG_support_of_checkpoint_justification of ffg.py,
parameterized like the support predicate. -/
def get_validators_in_FFG_support_of_checkpoint_justification_with
    (is_just : Checkpoint → Bool) (votes : List SignedVoteMessage)
    (checkpoint : Checkpoint) (node_state : CommonNodeState) : List NodeIdentity :=
  pset_map_to_pset
    (fun vote => vote.sender)
    (filter_out_FFG_votes_not_in_FFG_support_of_checkpoint_justification_with
      is_just votes checkpoint node_state)

/-- Non-genesis branch of is_justified_checkpoint of ffg.py (the completeness
check and the supermajority weight comparison), with the recursive call
abstracted into `is_just`. -/
def checkpoint_justification_weight_ok (checkpoint_block : Block)
    (checkpoint : Checkpoint) (node_state : CommonNodeState)
    (is_just : Checkpoint → Bool) : Bool :=
  if ¬ is_complete_chain checkpoint_block node_state then
    false
  else
    let validatorBalances :=
      get_validator_set_for_slot checkpoint_block checkpoint.block_slot node_state
    let FFG_support_weight :=
      validator_set_weight
        (get_validators_in_FFG_support_of_checkpoint_justification_with
          is_just node_state.view_votes checkpoint node_state)
        validatorBalances
    let tot_validator_set_weight :=
      validator_set_weight (pmap_keys validatorBalances) validatorBalances
    decide (FFG_support_weight * 3 ≥ tot_validator_set_weight * 2)

/-- Body of is_justified_checkpoint of ffg.py, with the recursive call
abstracted into `is_just`. -/
def checkpoint_justification_body (checkpoint : Checkpoint)
    (node_state : CommonNodeState) (is_just : Checkpoint → Bool) : Bool :=
  if checkpoint = genesis_checkpoint node_state then
    true
  else
    match get_block_from_hash checkpoint.block_hash node_state with
    | none => false
    | some checkpoint_block =>
      checkpoint_justification_weight_ok checkpoint_block checkpoint node_state is_just

/-- is_justified_checkpoint of ffg.py as a fuel recursion: each recursive call
through a supporting vote is made on that vote's `ffg_source`, whose `chkp_slot`
is strictly smaller (claim C5), so `chkp_slot + 1` fuel computes the value. -/
def is_justified_checkpoint_fuel : Nat → Checkpoint → CommonNodeState → Bool
  | 0, _, _ => false
  | fuel + 1, checkpoint, node_state =>
    checkpoint_justification_body checkpoint node_state
      (fun c => is_justified_checkpoint_fuel fuel c node_state)

/-- is_justified_checkpoint of ffg.py. -/
def is_justified_checkpoint (checkpoint : Checkpoint) (node_state : CommonNodeState) : Bool :=
  is_justified_checkpoint_fuel (checkpoint.chkp_slot + 1) checkpoint node_state

/-- is_FFG_vote_in_support_of_checkpoint_justification of ffg.py. -/
def is_FFG_vote_in_support_of_checkpoint_justification (vote : SignedVoteMessage)
    (checkpoint : Checkpoint) (node_state : CommonNodeState) : Bool :=
  is_FFG_vote_in_support_of_checkpoint_justification_with
    (fun c => is_justified_checkpoint c node_state) vote checkpoint node_state

/-- filter_out_non_justified_checkpoint of ffg.py. -/
def filter_out_non_justified_checkpoint (checkpoints : List Checkpoint)
    (node_state : CommonNodeState) : List Checkpoint :=
  pset_filter (fun checkpoint => is_justified_checkpoint checkpoint node_state) checkpoints

/-- get_justified_checkpoints of ffg.py. -/
def get_justified_checkpoints (node_state : CommonNodeState) : List Checkpoint :=
  pset_add
    (filter_out_non_justified_checkpoint (get_set_FFG_targets node_state.view_votes) node_state)
    (genesis_checkpoint node_state)

/-- Ordering key `(chkp_slot, block_slot)` used by get_greatest_justified_checkpoint
(Python tuple comparison is lexicographic). -/
def checkpoint_key (c : Checkpoint) : Nat ×ₗ Nat :=
  toLex (c.chkp_slot, c.block_slot)

/-- get_greatest_justified_checkpoint of ffg.py.  The justified set always
contains the genesis checkpoint, so `pset_max_by` never returns `none` here and
the `getD` default is never used. -/
def get_greatest_justified_checkpoint (node_state : CommonNodeState) : Checkpoint :=
  (pset_max_by (get_justified_checkpoints node_state) checkpoint_key).getD
    (genesis_checkpoint node_state)

/-- is_FFG_vote_linking_to_a_checkpoint_in_next_slot of ffg.py. -/
def is_FFG_vote_linking_to_a_checkpoint_in_next_slot (vote : SignedVoteMessage)
    (checkpoint : Checkpoint) (node_state : CommonNodeState) : Bool :=
  valid_FFG_vote vote node_state &&
  (vote.message.ffg_source == checkpoint) &&
  (vote.message.ffg_target.chkp_slot == checkpoint.chkp_slot + 1)

/-- filter_out_FFG_vote_not_linking_to_a_checkpoint_in_next_slot of ffg.py. -/
def filter_out_FFG_vote_not_linking_to_a_checkpoint_in_next_slot
    (checkpoint : Checkpoint) (node_state : CommonNodeState) : List SignedVoteMessage :=
  pset_filter
    (fun vote => is_FFG_vote_linking_to_a_checkpoint_in_next_slot vote checkpoint node_state)
    node_state.view_votes

/-- get_validators_in_FFG_votes_linking_to_a_checkpoint_in_next_slot of ffg.py. -/
def get_validators_in_FFG_votes_linking_to_a_checkpoint_in_next_slot
    (checkpoint : Checkpoint) (node_state : CommonNodeState) : List NodeIdentity :=
  pset_map_to_pset
    (fun vote => vote.sender)
    (filter_out_FFG_vote_not_linking_to_a_checkpoint_in_next_slot checkpoint node_state)

/-- is_finalized_checkpoint of ffg.py (lookup failure of the checkpoint's block,
where Python would breach the get_block_from_hash contract, is totalized to false). -/
def is_finalized_checkpoint (checkpoint : Checkpoint) (node_state : CommonNodeState) : Bool :=
  if ¬ is_justified_checkpoint checkpoint node_state then
    false
  else
    match get_block_from_hash checkpoint.block_hash node_state with
    | none => false
    | some checkpoint_block =>
      let validatorBalances :=
        get_validator_set_for_slot checkpoint_block checkpoint.block_slot node_state
      let FFG_support_weight :=
        validator_set_weight
          (get_validators_in_FFG_votes_linking_to_a_checkpoint_in_next_slot
            checkpoint node_state)
          validatorBalances
      let tot_validator_set_weight :=
        validator_set_weight (pmap_keys validatorBalances) validatorBalances
      decide (FFG_support_weight * 3 ≥ tot_validator_set_weight * 2)

/-- are_equivocating_votes of ffg.py. -/
def are_equivocating_votes (vote1 vote2 : SignedVoteMessage) : Bool :=
  verify_vote_signature vote1 &&
  verify_vote_signature vote2 &&
  (vote1.sender == vote2.sender) &&
  (vote1 != vote2) &&
  (vote1.message.ffg_target.chkp_slot == vote2.message.ffg_target.chkp_slot)

/-- does_first_vote_surround_second_vote of ffg.py; the Python tuple comparison
`(a.chkp_slot, a.block_slot) < (b.chkp_slot, b.block_slot)` is lexicographic. -/
def does_first_vote_surround_second_vote (vote1 vote2 : SignedVoteMessage) : Bool :=
  verify_vote_signature vote1 &&
  verify_vote_signature vote2 &&
  (vote1.sender == vote2.sender) &&
  decide
    (vote1.message.ffg_source.chkp_slot < vote2.message.ffg_source.chkp_slot ∨
      (vote1.message.ffg_source.chkp_slot = vote2.message.ffg_source.chkp_slot ∧
        vote1.message.ffg_source.block_slot < vote2.message.ffg_source.block_slot)) &&
  decide (vote2.message.ffg_target.chkp_slot < vote1.message.ffg_target.chkp_slot)

/-- is_slashable_offence of ffg.py. -/
def is_slashable_offence (vote1 vote2 : SignedVoteMessage) : Bool :=
  are_equivocating_votes vote1 vote2 ||
  does_first_vote_surround_second_vote vote1 vote2 ||
  does_first_vote_surround_second_vote vote2 vote1

/-- is_slashable_node of ffg.py. -/
def is_slashable_node (node : NodeIdentity) (vote1 vote2 : SignedVoteMessage) : Bool :=
  (node == vote1.sender) && is_slashable_offence vote1 vote2

/-- get_slashabe_nodes of ffg.py (source spelling kept). -/
def get_slashabe_nodes (vote_view : List SignedVoteMessage) : List NodeIdentity :=
  pset_map_to_pset (fun vote => vote.sender)
    (pset_filter
      (fun vote1 =>
        !(pset_is_empty
          (pset_filter (fun vote2 => is_slashable_offence vote1 vote2) vote_view)))
      vote_view)

/-! ### high_level/protocols/rlmd/helpers.py -/

/-- get_slot_from_time of rlmd helpers.py. -/
def get_slot_from_time (time : Nat) (node_state : NodeState) : Nat :=
  time / (4 * node_state.common.configuration.delta)

/-- get_phase_from_time of rlmd helpers.py. -/
def get_phase_from_time (time : Nat) (node_state : NodeState) : NodePhase :=
  let time_in_slot := time % (4 * node_state.common.configuration.delta)
  if time_in_slot ≥ 3 * node_state.common.configuration.delta then
    NodePhase.MERGE
  else if time_in_slot ≥ 2 * node_state.common.configuration.delta then
    NodePhase.CONFIRM
  else if time_in_slot ≥ node_state.common.configuration.delta then
    NodePhase.VOTE
  else
    NodePhase.PROPOSE

/-- filter_out_GHOST_votes_non_descendant_of_block of rlmd helpers.py. -/
def filter_out_GHOST_votes_non_descendant_of_block (block : Block)
    (votes : List SignedVoteMessage) (node_state : NodeState) : List SignedVoteMessage :=
  pset_filter
    (fun vote =>
      has_block_hash vote.message.head_hash node_state.common &&
      (match get_block_from_hash vote.message.head_hash node_state.common with
       | some head_block =>
         is_ancestor_descendant_relationship block head_block node_state.common
       | none => false))
    votes

/-- is_GHOST_vote_expired of rlmd helpers.py. -/
def is_GHOST_vote_expired (vote : SignedVoteMessage) (node_state : NodeState) : Bool :=
  decide
    (vote.message.slot + node_state.common.configuration.eta < node_state.common.current_slot)

/-- filter_out_expired_GHOST_votes of rlmd helpers.py, translated exactly: the
filter predicate is `is_GHOST_vote_expired` itself, not its negation (claim C1). -/
def filter_out_expired_GHOST_votes (votes : List SignedVoteMessage)
    (node_state : NodeState) : List SignedVoteMessage :=
  pset_filter (fun vote => is_GHOST_vote_expired vote node_state) votes

/-- filter_out_non_LMD_GHOST_votes of rlmd helpers.py (the Python loop over the
set is a fold building a per-sender latest-vote map). -/
def filter_out_non_LMD_GHOST_votes (votes : List SignedVoteMessage) :
    List SignedVoteMessage :=
  pmap_values
    (votes.foldl
      (fun lmd vote =>
        match pmap_get lmd vote.sender with
        | none => pmap_set lmd vote.sender vote
        | some lmd_vote =>
          if lmd_vote.message.slot < vote.message.slot then
            pmap_set lmd vote.sender vote
          else
            lmd)
      pmap_get_empty)

/-- is_equivocating_GHOST_vote of rlmd helpers.py. -/
def is_equivocating_GHOST_vote (vote : SignedVoteMessage) (node_state : NodeState) : Bool :=
  !(pset_is_empty
    (pset_filter
      (fun vote_check =>
        (vote_check.message.slot == vote.message.slot) &&
        (vote_check.sender == vote.sender) &&
        (vote_check.message.head_hash != vote.message.head_hash))
      node_state.common.view_votes))

/-- filter_out_GHOST_equivocating_votes of rlmd helpers.py. -/
def filter_out_GHOST_equivocating_votes (votes : List SignedVoteMessage)
    (node_state : NodeState) : List SignedVoteMessage :=
  pset_filter (fun vote => !(is_equivocating_GHOST_vote vote node_state)) votes

/-- valid_vote of rlmd helpers.py (head/target lookups totalized to false like
valid_FFG_vote). -/
def valid_vote (vote : SignedVoteMessage) (node_state : NodeState) : Bool :=
  verify_vote_signature vote &&
  valid_FFG_vote vote node_state.common &&
  (match get_block_from_hash vote.message.head_hash node_state.common,
       get_block_from_hash vote.message.ffg_target.block_hash node_state.common with
   | some head_block, some target_block =>
     has_block_hash vote.message.head_hash node_state.common &&
     is_complete_chain head_block node_state.common &&
     is_validator vote.sender
       (get_validator_set_for_slot head_block vote.message.slot node_state.common) &&
     is_ancestor_descendant_relationship target_block head_block node_state.common
   | _, _ => false)

/-- filter_out_invalid_votes of rlmd helpers.py. -/
def filter_out_invalid_votes (votes : List SignedVoteMessage) (node_state : NodeState) :
    List SignedVoteMessage :=
  pset_filter (fun vote => valid_vote vote node_state) votes

/-- get_votes_included_in_blocks of rlmd helpers.py. -/
def get_votes_included_in_blocks (blocks : List Block) : List SignedVoteMessage :=
  pset_merge_flatten (pset_map (fun b => b.votes) blocks)

/-- get_GHOST_weight of rlmd helpers.py (the balance lookup is guarded by the
`is_validator` conjunct of the filter, so the `getD 0` default is never used). -/
def get_GHOST_weight (block : Block) (votes : List SignedVoteMessage)
    (node_state : NodeState) (validatorBalances : ValidatorBalances) : Nat :=
  pset_sum
    (pset_map
      (fun vote => (pmap_get validatorBalances vote.sender).getD 0)
      (pset_filter
        (fun vote =>
          has_block_hash vote.message.head_hash node_state.common &&
          (match get_block_from_hash vote.message.head_hash node_state.common with
           | some head_block =>
             is_ancestor_descendant_relationship block head_block node_state.common
           | none => false) &&
          is_validator vote.sender validatorBalances)
        votes))

/-- get_children of rlmd helpers.py. -/
def get_children (block : Block) (node_state : NodeState) : List Block :=
  pset_filter
    (fun b => b.parent_hash == block_hash block node_state.common)
    (get_all_blocks node_state.common)

/-- find_head_from of rlmd helpers.py as a fuel recursion (each step descends
into a child from the view, so `view_fuel` computes the Python value on every
input on which Python terminates).  Note that this variant always descends into
the maximum-weight child whenever any child exists (claim C2). -/
def find_head_from_fuel :
    Nat → Block → List SignedVoteMessage → NodeState → ValidatorBalances → Block
  | 0, block, _, _, _ => block
  | fuel + 1, block, votes, node_state, validatorBalances =>
    let children := get_children block node_state
    match pset_max_by children
        (fun child => get_GHOST_weight child votes node_state validatorBalances) with
    | none => block
    | some best_child => find_head_from_fuel fuel best_child votes node_state validatorBalances

/-- find_head_from of rlmd helpers.py. -/
def find_head_from (block : Block) (votes : List SignedVoteMessage)
    (node_state : NodeState) (validatorBalances : ValidatorBalances) : Block :=
  find_head_from_fuel (view_fuel node_state.common) block votes node_state validatorBalances

/-- get_head of rlmd helpers.py (`none` when the greatest justified checkpoint's
block is absent from view, where Python would breach the get_block_from_hash
contract). -/
def get_head (node_state : NodeState) : Option Block :=
  match get_block_from_hash
      (get_greatest_justified_checkpoint node_state.common).block_hash node_state.common with
  | none => none
  | some greatest_justified_block =>
    let relevant_votes : List SignedVoteMessage :=
      filter_out_GHOST_votes_non_descendant_of_block
        greatest_justified_block
        (filter_out_non_LMD_GHOST_votes
          (filter_out_expired_GHOST_votes
            (filter_out_GHOST_equivocating_votes
              (filter_out_invalid_votes node_state.common.view_votes node_state)
              node_state)
            node_state))
        node_state
    let validatorBalances :=
      get_validator_set_for_slot greatest_justified_block
        node_state.common.current_slot node_state.common
    some (find_head_from greatest_justified_block relevant_votes node_state validatorBalances)

/-- execute_view_merge of rlmd helpers.py (the four sequential `set` updates). -/
def execute_view_merge (node_state : NodeState) : NodeState :=
  let ns1 : NodeState :=
    { node_state with
      common :=
        { node_state.common with
          view_blocks := pmap_merge node_state.common.view_blocks node_state.buffer_blocks } }
  let ns2 : NodeState :=
    { ns1 with
      common :=
        { ns1.common with
          view_votes :=
            pset_merge
              (pset_merge ns1.common.view_votes ns1.buffer_votes)
              (get_votes_included_in_blocks (get_all_blocks ns1.common)) } }
  let ns3 : NodeState := { ns2 with buffer_votes := pset_get_empty }
  { ns3 with buffer_blocks := pmap_get_empty }

/-! ### pyspec/beacon_chain.py -/

def K_DEEP_CONFIRMATION_PARAMETER : Nat := 64

/-- Modelled from the spec: GENESIS_SLOT is not defined under src/; the spec's
`k_deep_slot(s) = max(0, s − k)` fixes it as slot 0. -/
def GENESIS_SLOT : Nat := 0

/-- get_k_deep_slot of pyspec/beacon_chain.py, translated exactly: the Python
body assigns the local `k_deep_slot` in both branches but has no return
statement, so the function returns None (claim C10). -/
def get_k_deep_slot (slot : Nat) : Option Nat :=
  let k_deep_slot :=
    if slot ≥ K_DEEP_CONFIRMATION_PARAMETER then
      slot - K_DEEP_CONFIRMATION_PARAMETER
    else
      GENESIS_SLOT
  none

/-! ### Contract-checking variant of valid_FFG_vote (for claim C7)

valid_FFG_vote of ffg.py with Python's exact left-to-right short-circuit
evaluation: `none` marks the point where Python evaluates
`get_block_from_hash h` although `has_block_hash h` is false, breaching the
`Requires` contract of get_block_from_hash (a KeyError at runtime). -/

def valid_FFG_vote_checked (vote : SignedVoteMessage) (node_state : CommonNodeState) :
    Option Bool :=
  if ¬ verify_vote_signature vote then
    some false
  else
    match get_block_from_hash vote.message.head_hash node_state with
    | none => none
    | some head_block =>
      if ¬ is_validator vote.sender
          (get_validator_set_for_slot head_block vote.message.slot node_state) then
        some false
      else
        match get_block_from_hash vote.message.ffg_source.block_hash node_state with
        | none => none
        | some source_block =>
          match get_block_from_hash vote.message.ffg_target.block_hash node_state with
          | none => none
          | some target_block =>
            some
              (is_ancestor_descendant_relationship source_block target_block node_state &&
                decide
                  (vote.message.ffg_source.chkp_slot < vote.message.ffg_target.chkp_slot) &&
                has_block_hash vote.message.ffg_source.block_hash node_state &&
                (source_block.slot == vote.message.ffg_source.block_slot) &&
                has_block_hash vote.message.ffg_target.block_hash node_state &&
                (target_block.slot == vote.message.ffg_target.block_slot))

/-! ### Concrete states used by the counterexample and evaluation theorems -/

/-- Genesis block of the concrete states: parent hash 99 (the zero-hash
placeholder), slot 0, no votes. -/
def Gb : Block := { parent_hash := 99, slot := 0, votes := [], body := 0 }

/-- Child of the genesis block at slot 1. -/
def B1b : Block := { parent_hash := 0, slot := 1, votes := [], body := 0 }

/-- Concrete injective hashing oracle: a block's hash is its slot (the two
blocks in view have distinct slots). -/
def hfn : Block → Hash := fun b => b.slot

/-- Concrete stake oracle: validators 0 and 1, each of weight 1, at every
(block, slot). -/
def vsfn : Block → Nat → ValidatorBalances := fun _ _ => [(0, 1), (1, 1)]

def cfgA : Configuration :=
  { delta := 1, genesis := Gb, eta := 1, k := 1, block_hash_fn := hfn
    validator_set_for_slot_fn := vsfn }

/-- Genesis checkpoint of the concrete states. -/
def CA : Checkpoint := { block_hash := 0, chkp_slot := 0, block_slot := 0 }

/-- Next-slot checkpoint over the genesis block. -/
def T1 : Checkpoint := { block_hash := 0, chkp_slot := 1, block_slot := 0 }

/-- Next-slot checkpoint over block B1b. -/
def T2 : Checkpoint := { block_hash := 1, chkp_slot := 1, block_slot := 1 }

/-- Vote of validator 0: source CA, target T1, head Gb. -/
def vA0 : SignedVoteMessage :=
  { message := { slot := 1, head_hash := 0, ffg_source := CA, ffg_target := T1 }
    signature := true, sender := 0 }

/-- Vote of validator 1: source CA, target T2, head B1b. -/
def vA1 : SignedVoteMessage :=
  { message := { slot := 1, head_hash := 1, ffg_source := CA, ffg_target := T2 }
    signature := true, sender := 1 }

/-- Concrete state for claim C3: both validators cast valid FFG votes from the
genesis checkpoint CA to two distinct next-slot targets T1 and T2. -/
def nsA : CommonNodeState :=
  { configuration := cfgA, identity := 7, current_slot := 2
    view_blocks := [(0, Gb), (1, B1b)], view_votes := [vA0, vA1], chava := Gb }

/-- Concrete rlmd state for claim C2: two blocks, no votes at all. -/
def nsB : NodeState :=
  { common :=
      { configuration := cfgA, identity := 7, current_slot := 2
        view_blocks := [(0, Gb), (1, B1b)], view_votes := [], chava := Gb }
    current_phase := NodePhase.PROPOSE, buffer_votes := [], buffer_blocks := [] }

def cfgC : Configuration :=
  { delta := 1, genesis := Gb, eta := 0, k := 1, block_hash_fn := hfn
    validator_set_for_slot_fn := vsfn }

/-- Expired vote (slot 0, eta 0, current slot 2). -/
def vC0 : SignedVoteMessage :=
  { message := { slot := 0, head_hash := 0, ffg_source := CA, ffg_target := T1 }
    signature := true, sender := 0 }

/-- Non-expired vote (slot 2, eta 0, current slot 2). -/
def vC1 : SignedVoteMessage :=
  { message := { slot := 2, head_hash := 0, ffg_source := CA, ffg_target := T1 }
    signature := true, sender := 1 }

/-- Concrete rlmd state for claim C1 (eta 0, current slot 2). -/
def nsC : NodeState :=
  { common :=
      { configuration := cfgC, identity := 7, current_slot := 2
        view_blocks := [(0, Gb)], view_votes := [], chava := Gb }
    current_phase := NodePhase.PROPOSE, buffer_votes := [], buffer_blocks := [] }

/-- Concrete state for claim C7: only the genesis block is in view. -/
def nsD : CommonNodeState :=
  { configuration := cfgA, identity := 7, current_slot := 1
    view_blocks := [(0, Gb)], view_votes := [], chava := Gb }

/-- Adversarial vote for claim C7: correctly signed but voting for head hash 5,
which is absent from the view of nsD. -/
def badv : SignedVoteMessage :=
  { message := { slot := 1, head_hash := 5, ffg_source := CA, ffg_target := T1 }
    signature := true, sender := 0 }

/-- Equivocating pair for claim C8, with signatures that do not verify. -/
def wE1 : SignedVoteMessage :=
  { message := { slot := 1, head_hash := 0, ffg_source := CA, ffg_target := T1 }
    signature := false, sender := 0 }

/-- Second vote of the pair: same sender, distinct vote, same target chkp_slot. -/
def wE2 : SignedVoteMessage :=
  { message := { slot := 1, head_hash := 1, ffg_source := CA, ffg_target := T2 }
    signature := false, sender := 0 }

/-! ### Helper lemmas -/

/-- A true valid_FFG_vote has its source checkpoint slot strictly below its
target checkpoint slot (conjunct 4 of valid_FFG_vote). -/
lemma valid_FFG_vote_source_lt_target {v : SignedVoteMessage} {ns : CommonNodeState}
    (h : valid_FFG_vote v ns = true) :
    v.message.ffg_source.chkp_slot < v.message.ffg_target.chkp_slot := by
  unfold valid_FFG_vote at h
  split at h
  · simp only [Bool.and_eq_true, decide_eq_true_eq] at h
    tauto
  · exact absurd h (by simp)

/-- The justification body only queries `is_just` at checkpoints of strictly
smaller chkp_slot: any two instantiations agreeing there give the same value. -/
lemma checkpoint_justification_body_congr {cp : Checkpoint} {ns : CommonNodeState}
    {f g : Checkpoint → Bool}
    (h : ∀ c : Checkpoint, c.chkp_slot < cp.chkp_slot → f c = g c) :
    checkpoint_justification_body cp ns f = checkpoint_justification_body cp ns g := by
  unfold checkpoint_justification_body
  split
  · rfl
  split
  · rfl
  unfold checkpoint_justification_weight_ok
  split
  · rfl
  unfold validator_set_weight
    get_validators_in_FFG_support_of_checkpoint_justification_with
    filter_out_FFG_votes_not_in_FFG_support_of_checkpoint_justification_with
  have hfilter :
      List.filter
        (fun vote =>
          is_FFG_vote_in_support_of_checkpoint_justification_with f vote cp ns)
        ns.view_votes =
      List.filter
        (fun vote =>
          is_FFG_vote_in_support_of_checkpoint_justification_with g vote cp ns)
        ns.view_votes := by
    apply List.filter_congr
    intro v hv
    unfold is_FFG_vote_in_support_of_checkpoint_justification_with
    cases hA : valid_FFG_vote v ns with
    | false => simp
    | true =>
      cases hB : (v.message.ffg_target.chkp_slot == cp.chkp_slot) with
      | false => simp
      | true =>
        have hbe : v.message.ffg_target.chkp_slot = cp.chkp_slot := by
          simpa using hB
        have hlt : v.message.ffg_source.chkp_slot < cp.chkp_slot := by
          have := valid_FFG_vote_source_lt_target hA
          omega
        rw [h _ hlt]
  simp only [pset_filter, hfilter]

/-- Fuel congruence for the justification recursion: any two fuels above the
checkpoint slot compute the same value. -/
lemma is_justified_checkpoint_fuel_congr (ns : CommonNodeState) :
    ∀ n f1 f2 : Nat, ∀ cp : Checkpoint, cp.chkp_slot ≤ n → cp.chkp_slot < f1 →
      cp.chkp_slot < f2 →
      is_justified_checkpoint_fuel f1 cp ns = is_justified_checkpoint_fuel f2 cp ns := by
  intro n
  induction n with
  | zero =>
    intro f1 f2 cp hn h1 h2
    obtain ⟨g1, rfl⟩ : ∃ g1, f1 = g1 + 1 := ⟨f1 - 1, by omega⟩
    obtain ⟨g2, rfl⟩ : ∃ g2, f2 = g2 + 1 := ⟨f2 - 1, by omega⟩
    simp only [is_justified_checkpoint_fuel]
    apply checkpoint_justification_body_congr
    intro c hc
    exact absurd hc (by omega)
  | succ n ih =>
    intro f1 f2 cp hn h1 h2
    obtain ⟨g1, rfl⟩ : ∃ g1, f1 = g1 + 1 := ⟨f1 - 1, by omega⟩
    obtain ⟨g2, rfl⟩ : ∃ g2, f2 = g2 + 1 := ⟨f2 - 1, by omega⟩
    simp only [is_justified_checkpoint_fuel]
    apply checkpoint_justification_body_congr
    intro c hc
    exact ih g1 g2 c (by omega) (by omega) (by omega)

/-- Unfolding equation of is_justified_checkpoint: the Python mutual recursion
is a fixed point of the justification body. -/
lemma is_justified_checkpoint_unfold (cp : Checkpoint) (ns : CommonNodeState) :
    is_justified_checkpoint cp ns =
      checkpoint_justification_body cp ns (fun c => is_justified_checkpoint c ns) := by
  unfold is_justified_checkpoint
  simp only [is_justified_checkpoint_fuel]
  exact checkpoint_justification_body_congr (fun c hc =>
    is_justified_checkpoint_fuel_congr ns c.chkp_slot cp.chkp_slot (c.chkp_slot + 1) c
      le_rfl hc (by omega))

/-! ### Claim theorems -/

/-- C1: the vote-expiry filter is claimed to remove exactly the expired votes
(keep `vote.slot + eta >= current_slot`).  Evaluating the source translation on
a two-vote view shows the opposite: the expired vote vC0 (slot 0 + eta 0 <
current slot 2) is the one kept, and the non-expired vote vC1 (slot 2) is the
one removed — the filter predicate is `is_GHOST_vote_expired`, not its
negation. -/
theorem C1_filter_expired_keeps_exactly_the_expired :
    filter_out_expired_GHOST_votes [vC0, vC1] nsC = [vC0] ∧
    vC0.message.slot + nsC.common.configuration.eta < nsC.common.current_slot ∧
    ¬ (vC1.message.slot + nsC.common.configuration.eta < nsC.common.current_slot) := by
  decide

/-- C2: get_head is claimed to descend only into a child whose GHOST weight
strictly exceeds half of the total vote weight and to return the current block
otherwise.  On the concrete state nsB there are no votes at all, so every
weight is 0 and no child can have strict-majority weight; yet get_head descends
from the greatest justified block Gb into its child B1b, because the rlmd
find_head_from descends into the maximum-weight child whenever a child exists. -/
theorem C2_get_head_descends_without_strict_majority :
    get_head nsB = some B1b ∧
    B1b ≠ Gb ∧
    nsB.common.view_votes = [] ∧
    get_GHOST_weight B1b [] nsB (get_validator_set_for_slot Gb 2 nsB.common) = 0 := by
  decide

/-- C5: the justification recursion is well-founded: each recursive call is on
a checkpoint of strictly smaller chkp_slot, so any fuel above the checkpoint's
chkp_slot already computes the fixed value of is_justified_checkpoint (which
the recursion reaches after at most chkp_slot + 1 nested calls, bottoming out
at the genesis checkpoint). -/
theorem C5_justification_recursion_terminates (ns : CommonNodeState) (cp : Checkpoint)
    (fuel : Nat) (h : cp.chkp_slot < fuel) :
    is_justified_checkpoint_fuel fuel cp ns = is_justified_checkpoint cp ns :=
  is_justified_checkpoint_fuel_congr ns cp.chkp_slot fuel (cp.chkp_slot + 1) cp
    le_rfl h (by omega)

/-- Witness for C5 at fuel 5 and the concrete checkpoint T1 of state nsA. -/
theorem C5_justification_recursion_terminates_witness :
    T1.chkp_slot < 5 ∧
    is_justified_checkpoint_fuel 5 T1 nsA = is_justified_checkpoint T1 nsA :=
  ⟨by decide, C5_justification_recursion_terminates nsA T1 5 (by decide)⟩

/-- C7: vote validation is claimed to be total on adversarial input, never
evaluating get_block_from_hash on an absent hash.  The contract-checking
translation of valid_FFG_vote, evaluated on the correctly signed vote badv
whose head_hash 5 is absent from the view of nsD, reaches the breached
`Requires(has_block_hash ...)` contract (result `none`) instead of returning
false. -/
theorem C7_validation_breaches_lookup_contract :
    valid_FFG_vote_checked badv nsD = none ∧
    verify_vote_signature badv = true ∧
    has_block_hash badv.message.head_hash nsD = false := by
  decide

/-- C9: the clock is a pure function of time and the configuration:
get_slot_from_time returns `t / (4 * delta)` and get_phase_from_time returns
each phase exactly on its quarter-slot interval. -/
theorem C9_clock_slot_and_phase (t : Nat) (ns : NodeState)
    (hd : 0 < ns.common.configuration.delta) :
    get_slot_from_time t ns = t / (4 * ns.common.configuration.delta) ∧
    (get_phase_from_time t ns = NodePhase.PROPOSE ↔
      t % (4 * ns.common.configuration.delta) < ns.common.configuration.delta) ∧
    (get_phase_from_time t ns = NodePhase.VOTE ↔
      ns.common.configuration.delta ≤ t % (4 * ns.common.configuration.delta) ∧
        t % (4 * ns.common.configuration.delta) < 2 * ns.common.configuration.delta) ∧
    (get_phase_from_time t ns = NodePhase.CONFIRM ↔
      2 * ns.common.configuration.delta ≤ t % (4 * ns.common.configuration.delta) ∧
        t % (4 * ns.common.configuration.delta) < 3 * ns.common.configuration.delta) ∧
    (get_phase_from_time t ns = NodePhase.MERGE ↔
      3 * ns.common.configuration.delta ≤ t % (4 * ns.common.configuration.delta) ∧
        t % (4 * ns.common.configuration.delta) < 4 * ns.common.configuration.delta) := by
  refine ⟨rfl, ?_⟩
  have hm : t % (4 * ns.common.configuration.delta) < 4 * ns.common.configuration.delta :=
    Nat.mod_lt _ (by omega)
  simp only [get_phase_from_time]
  split_ifs with h1 h2 h3 <;>
    refine ⟨?_, ?_, ?_, ?_⟩ <;> simp <;> omega

/-- Witness for C9 at time 7 on the concrete state nsB (delta 1). -/
theorem C9_clock_slot_and_phase_witness :
    0 < nsB.common.configuration.delta ∧
    (get_phase_from_time 7 nsB = NodePhase.MERGE ↔
      3 * nsB.common.configuration.delta ≤ 7 % (4 * nsB.common.configuration.delta) ∧
        7 % (4 * nsB.common.configuration.delta) < 4 * nsB.common.configuration.delta) :=
  ⟨by decide, (C9_clock_slot_and_phase 7 nsB (by decide)).2.2.2.2⟩

/-- Lookup in a merged map: the second map (the buffer, in execute_view_merge)
takes precedence, all other keys fall through to the first map. -/
lemma pmap_get_merge {α β : Type} [BEq α] [LawfulBEq α] (m1 m2 : List (α × β)) (k : α) :
    pmap_get (pmap_merge m1 m2) k = (pmap_get m2 k).or (pmap_get m1 k) := by
  unfold pmap_get pmap_merge
  exact List.lookup_append

/-- C6: execute_view_merge merges the block buffer into the block view, merges
the vote buffer and the votes carried inside the blocks of the merged block
view into the vote view, empties both buffers, and changes no other state
component. -/
theorem C6_execute_view_merge_merges_and_clears (ns : NodeState) :
    (∀ h : Hash,
      pmap_get (execute_view_merge ns).common.view_blocks h =
        (pmap_get ns.buffer_blocks h).or (pmap_get ns.common.view_blocks h)) ∧
    (∀ v : SignedVoteMessage,
      v ∈ (execute_view_merge ns).common.view_votes ↔
        v ∈ ns.common.view_votes ∨ v ∈ ns.buffer_votes ∨
          ∃ b ∈ get_all_blocks (execute_view_merge ns).common, v ∈ b.votes) ∧
    (execute_view_merge ns).buffer_votes = [] ∧
    (execute_view_merge ns).buffer_blocks = [] ∧
    (execute_view_merge ns).common.configuration = ns.common.configuration ∧
    (execute_view_merge ns).common.identity = ns.common.identity ∧
    (execute_view_merge ns).common.current_slot = ns.common.current_slot ∧
    (execute_view_merge ns).common.chava = ns.common.chava ∧
    (execute_view_merge ns).current_phase = ns.current_phase := by
  refine ⟨fun h => pmap_get_merge _ _ _, fun v => ?_, rfl, rfl, rfl, rfl, rfl, rfl, rfl⟩
  simp only [execute_view_merge, pset_merge, get_votes_included_in_blocks,
    pset_merge_flatten, pset_map, pset_get_empty, pmap_get_empty,
    List.mem_append, List.mem_flatten, List.mem_map]
  constructor
  · rintro ((hv | hv) | ⟨s, ⟨b, hb, rfl⟩, hvb⟩)
    · exact Or.inl hv
    · exact Or.inr (Or.inl hv)
    · exact Or.inr (Or.inr ⟨b, hb, hvb⟩)
  · rintro (hv | hv | ⟨b, hb, hvb⟩)
    · exact Or.inl (Or.inl hv)
    · exact Or.inl (Or.inr hv)
    · exact Or.inr ⟨b.votes, ⟨b, hb, rfl⟩, hvb⟩

/-- Characterization of are_equivocating_votes as a proposition. -/
lemma are_equivocating_votes_iff {v1 v2 : SignedVoteMessage} :
    are_equivocating_votes v1 v2 = true ↔
      verify_vote_signature v1 = true ∧ verify_vote_signature v2 = true ∧
        v1.sender = v2.sender ∧ v1 ≠ v2 ∧
        v1.message.ffg_target.chkp_slot = v2.message.ffg_target.chkp_slot := by
  unfold are_equivocating_votes
  simp [and_assoc]

/-- Characterization of does_first_vote_surround_second_vote as a proposition. -/
lemma does_first_vote_surround_second_vote_iff {v1 v2 : SignedVoteMessage} :
    does_first_vote_surround_second_vote v1 v2 = true ↔
      verify_vote_signature v1 = true ∧ verify_vote_signature v2 = true ∧
        v1.sender = v2.sender ∧
        (v1.message.ffg_source.chkp_slot < v2.message.ffg_source.chkp_slot ∨
          (v1.message.ffg_source.chkp_slot = v2.message.ffg_source.chkp_slot ∧
            v1.message.ffg_source.block_slot < v2.message.ffg_source.block_slot)) ∧
        v2.message.ffg_target.chkp_slot < v1.message.ffg_target.chkp_slot := by
  unfold does_first_vote_surround_second_vote
  simp [and_assoc]

/-- C8 counterexample: on the two-vote view [wE1, wE2] — an equivocating pair
from sender 0 whose signatures do not verify — the claimed
membership-iff-offence equivalence fails: the pair satisfies the claim's
pairwise definition (same sender, distinct votes, equal target chkp_slot), but
get_slashabe_nodes returns the empty set because the code additionally requires
both signatures to verify. -/
theorem C8_slashing_claim_counterexample :
    ¬ ((0 : NodeIdentity) ∈ get_slashabe_nodes [wE1, wE2] ↔
      ∃ v1, v1 ∈ [wE1, wE2] ∧ v1.sender = 0 ∧
        ∃ v2, v2 ∈ [wE1, wE2] ∧ v1.sender = v2.sender ∧
          ((v1 ≠ v2 ∧ v1.message.ffg_target.chkp_slot = v2.message.ffg_target.chkp_slot) ∨
            ((v1.message.ffg_source.chkp_slot < v2.message.ffg_source.chkp_slot ∨
                (v1.message.ffg_source.chkp_slot = v2.message.ffg_source.chkp_slot ∧
                  v1.message.ffg_source.block_slot < v2.message.ffg_source.block_slot)) ∧
              v2.message.ffg_target.chkp_slot < v1.message.ffg_target.chkp_slot) ∨
            ((v2.message.ffg_source.chkp_slot < v1.message.ffg_source.chkp_slot ∨
                (v2.message.ffg_source.chkp_slot = v1.message.ffg_source.chkp_slot ∧
                  v2.message.ffg_source.block_slot < v1.message.ffg_source.block_slot)) ∧
              v1.message.ffg_target.chkp_slot < v2.message.ffg_target.chkp_slot))) := by
  decide

/-- C8 amended: a node is in get_slashabe_nodes(view) iff it sent a vote v1 in
the view for which some v2 in the view forms a slashable pair, where — exactly
as in the source — both signatures must verify, the senders must coincide, and
the pair is an equivocation (v1 ≠ v2 with equal target chkp_slot) or one vote
surrounds the other (source strictly below in (chkp_slot, block_slot)
lexicographic order, target chkp_slot strictly above). -/
theorem C8_slashing_detection_amended (view : List SignedVoteMessage) (n : NodeIdentity) :
    n ∈ get_slashabe_nodes view ↔
      ∃ v1, v1 ∈ view ∧ v1.sender = n ∧
        ∃ v2, v2 ∈ view ∧
          verify_vote_signature v1 = true ∧ verify_vote_signature v2 = true ∧
          v1.sender = v2.sender ∧
          ((v1 ≠ v2 ∧ v1.message.ffg_target.chkp_slot = v2.message.ffg_target.chkp_slot) ∨
            ((v1.message.ffg_source.chkp_slot < v2.message.ffg_source.chkp_slot ∨
                (v1.message.ffg_source.chkp_slot = v2.message.ffg_source.chkp_slot ∧
                  v1.message.ffg_source.block_slot < v2.message.ffg_source.block_slot)) ∧
              v2.message.ffg_target.chkp_slot < v1.message.ffg_target.chkp_slot) ∨
            ((v2.message.ffg_source.chkp_slot < v1.message.ffg_source.chkp_slot ∨
                (v2.message.ffg_source.chkp_slot = v1.message.ffg_source.chkp_slot ∧
                  v2.message.ffg_source.block_slot < v1.message.ffg_source.block_slot)) ∧
              v1.message.ffg_target.chkp_slot < v2.message.ffg_target.chkp_slot)) := by
  unfold get_slashabe_nodes pset_map_to_pset pset_filter pset_is_empty
  simp only [List.mem_dedup, List.mem_map, List.mem_filter, Bool.not_eq_true',
    List.isEmpty_iff]
  constructor
  · rintro ⟨v1, ⟨hv1, hne⟩, hs⟩
    have hne2 : List.filter (fun vote2 => is_slashable_offence v1 vote2) view ≠ [] := by
      intro hl
      rw [hl] at hne
      simp at hne
    obtain ⟨v2, hv2⟩ := List.exists_mem_of_ne_nil _ hne2
    rw [List.mem_filter] at hv2
    obtain ⟨hv2m, hoff⟩ := hv2
    unfold is_slashable_offence at hoff
    simp only [Bool.or_eq_true, are_equivocating_votes_iff,
      does_first_vote_surround_second_vote_iff] at hoff
    refine ⟨v1, hv1, hs, v2, hv2m, ?_⟩
    rcases hoff with (⟨h1, h2, h3, h4, h5⟩ | ⟨h1, h2, h3, h4, h5⟩) | ⟨h1, h2, h3, h4, h5⟩
    · exact ⟨h1, h2, h3, Or.inl ⟨h4, h5⟩⟩
    · exact ⟨h1, h2, h3, Or.inr (Or.inl ⟨h4, h5⟩)⟩
    · exact ⟨h2, h1, h3.symm, Or.inr (Or.inr ⟨h4, h5⟩)⟩
  · rintro ⟨v1, hv1, hs, v2, hv2, hsig1, hsig2, hsend, hcase⟩
    refine ⟨v1, ⟨hv1, ?_⟩, hs⟩
    have hoff : is_slashable_offence v1 v2 = true := by
      unfold is_slashable_offence
      simp only [Bool.or_eq_true, are_equivocating_votes_iff,
        does_first_vote_surround_second_vote_iff]
      rcases hcase with ⟨h4, h5⟩ | ⟨h4, h5⟩ | ⟨h4, h5⟩
      · exact Or.inl (Or.inl ⟨hsig1, hsig2, hsend, h4, h5⟩)
      · exact Or.inl (Or.inr ⟨hsig1, hsig2, hsend, h4, h5⟩)
      · exact Or.inr ⟨hsig2, hsig1, hsend.symm, h4, h5⟩
    have hmem : v2 ∈ List.filter (fun vote2 => is_slashable_offence v1 vote2) view :=
      List.mem_filter.mpr ⟨hv2, hoff⟩
    rcases hfl : List.filter (fun vote2 => is_slashable_offence v1 vote2) view with
      _ | ⟨a, t⟩
    · rw [hfl] at hmem
      simp at hmem
    · rfl

/-- Formalization of the weight used by claim C3's single-link reading
(following the claim's words, to be compared with the code): the weight of the
validators whose valid FFG votes in view have ffg_source exactly `cp` and
ffg_target exactly the single checkpoint `cpT`. -/
def claim_single_link_weight (cp cpT : Checkpoint) (ns : CommonNodeState)
    (validatorBalances : ValidatorBalances) : Nat :=
  validator_set_weight
    ((pmap_keys validatorBalances).filter
      (fun n =>
        decide (∃ v ∈ ns.view_votes, v.sender = n ∧ valid_FFG_vote v ns = true ∧
          v.message.ffg_source = cp ∧ v.message.ffg_target = cpT)))
    validatorBalances

/-- Formalization of claim C3 as stated (following the claim's words): `cp` is
justified and some justified checkpoint of the next chkp_slot receives
supermajority support through votes linking `cp` to it alone. -/
def claim_finalized (cp : Checkpoint) (ns : CommonNodeState) : Prop :=
  is_justified_checkpoint cp ns = true ∧
  ∃ cpT : Checkpoint, is_justified_checkpoint cpT ns = true ∧
    cpT.chkp_slot = cp.chkp_slot + 1 ∧
    ∃ b, get_block_from_hash cp.block_hash ns = some b ∧
      claim_single_link_weight cp cpT ns (get_validator_set_for_slot b cp.block_slot ns) * 3 ≥
        validator_set_weight
          (pmap_keys (get_validator_set_for_slot b cp.block_slot ns))
          (get_validator_set_for_slot b cp.block_slot ns) * 2

/-- Aggregated next-slot link weight, phrased like the claim but over all
next-slot targets combined (the quantity the code actually compares). -/
def claim_aggregated_link_weight (cp : Checkpoint) (ns : CommonNodeState)
    (validatorBalances : ValidatorBalances) : Nat :=
  validator_set_weight
    ((pmap_keys validatorBalances).filter
      (fun n =>
        decide (∃ v ∈ ns.view_votes, v.sender = n ∧ valid_FFG_vote v ns = true ∧
          v.message.ffg_source = cp ∧
          v.message.ffg_target.chkp_slot = cp.chkp_slot + 1)))
    validatorBalances

/-- The code's linking-validator weight coincides with the aggregated link
weight phrased as an existential over the vote view. -/
lemma linking_weight_eq (cp : Checkpoint) (ns : CommonNodeState)
    (bal : ValidatorBalances) :
    validator_set_weight
      (get_validators_in_FFG_votes_linking_to_a_checkpoint_in_next_slot cp ns) bal =
    claim_aggregated_link_weight cp ns bal := by
  unfold claim_aggregated_link_weight validator_set_weight pset_intersection pset_sum pset_map
  apply congrArg List.sum
  apply congrArg (List.map _)
  apply List.filter_congr
  intro x hx
  rw [decide_eq_decide]
  unfold get_validators_in_FFG_votes_linking_to_a_checkpoint_in_next_slot
    filter_out_FFG_vote_not_linking_to_a_checkpoint_in_next_slot pset_map_to_pset pset_filter
  simp only [List.mem_dedup, List.mem_map, List.mem_filter, List.mem_filter,
    decide_eq_true_eq]
  constructor
  · rintro ⟨v, ⟨hv, hl⟩, hsend⟩
    unfold is_FFG_vote_linking_to_a_checkpoint_in_next_slot at hl
    simp only [Bool.and_eq_true, beq_iff_eq] at hl
    exact ⟨hx, v, hv, hsend, hl.1.1, hl.1.2, hl.2⟩
  · rintro ⟨_, v, hv, hsend, hval, hsrc, htgt⟩
    refine ⟨v, ⟨hv, ?_⟩, hsend⟩
    unfold is_FFG_vote_linking_to_a_checkpoint_in_next_slot
    simp only [Bool.and_eq_true, beq_iff_eq]
    exact ⟨⟨hval, hsrc⟩, htgt⟩

/-- C3 counterexample: in the concrete state nsA the genesis checkpoint CA is
finalized by the code (both validators cast valid next-slot link votes from
CA), but the claim's right-hand side fails: the two votes go to two distinct
next-slot targets T1 and T2, so no single justified next-slot checkpoint
receives supermajority single-link support (T1 is justified but carries only
one link vote; T2 is not justified and also carries only one). -/
theorem C3_finalization_claim_counterexample :
    is_finalized_checkpoint CA nsA = true ∧ ¬ claim_finalized CA nsA := by
  constructor
  · decide
  · rintro ⟨hj, cpT, hjT, hslot, b, hb, hw⟩
    have hbG : b = Gb := by
      have hG : get_block_from_hash CA.block_hash nsA = some Gb := by decide
      rw [hG] at hb
      exact (Option.some.inj hb).symm
    subst hbG
    by_cases h1 : cpT = T1
    · subst h1
      exact absurd hw (by decide)
    by_cases h2 : cpT = T2
    · subst h2
      exact absurd hjT (by decide)
    have hp0 : ¬ (∃ v ∈ nsA.view_votes, v.sender = 0 ∧ valid_FFG_vote v nsA = true ∧
        v.message.ffg_source = CA ∧ v.message.ffg_target = cpT) := by
      rintro ⟨v, hv, hsend, hval, hsrc, htgt⟩
      have hv2 : v = vA0 ∨ v = vA1 := by simpa [nsA] using hv
      rcases hv2 with rfl | rfl
      · exact h1 htgt.symm
      · exact h2 htgt.symm
    have hp1 : ¬ (∃ v ∈ nsA.view_votes, v.sender = 1 ∧ valid_FFG_vote v nsA = true ∧
        v.message.ffg_source = CA ∧ v.message.ffg_target = cpT) := by
      rintro ⟨v, hv, hsend, hval, hsrc, htgt⟩
      have hv2 : v = vA0 ∨ v = vA1 := by simpa [nsA] using hv
      rcases hv2 with rfl | rfl
      · exact h1 htgt.symm
      · exact h2 htgt.symm
    have hw0 : claim_single_link_weight CA cpT nsA
        (get_validator_set_for_slot Gb CA.block_slot nsA) = 0 := by
      unfold claim_single_link_weight
      have hkeys : pmap_keys (get_validator_set_for_slot Gb CA.block_slot nsA) = [0, 1] := by
        decide
      rw [hkeys]
      have hfil :
          List.filter
            (fun n =>
              decide (∃ v ∈ nsA.view_votes, v.sender = n ∧ valid_FFG_vote v nsA = true ∧
                v.message.ffg_source = CA ∧ v.message.ffg_target = cpT))
            [0, 1] = [] := by
        apply List.filter_eq_nil_iff.mpr
        intro a ha
        simp only [List.mem_cons, List.not_mem_nil, or_false] at ha
        rcases ha with rfl | rfl
        · simpa using hp0
        · simpa using hp1
      rw [hfil]
      decide
    rw [hw0] at hw
    have htot : validator_set_weight
        (pmap_keys (get_validator_set_for_slot Gb CA.block_slot nsA))
        (get_validator_set_for_slot Gb CA.block_slot nsA) = 2 := by decide
    rw [htot] at hw
    omega

/-- C3 amended: is_finalized_checkpoint(C) returns true iff C is justified, its
block is in view, and the validators whose valid FFG votes have ffg_source
exactly C and ffg_target in chkp_slot C.chkp_slot + 1 — aggregated over all
such next-slot targets, with no justification requirement on the targets —
carry supermajority weight. -/
theorem C3_finalization_amended (cp : Checkpoint) (ns : CommonNodeState) :
    is_finalized_checkpoint cp ns = true ↔
      (is_justified_checkpoint cp ns = true ∧
        ∃ b, get_block_from_hash cp.block_hash ns = some b ∧
          claim_aggregated_link_weight cp ns
              (get_validator_set_for_slot b cp.block_slot ns) * 3 ≥
            validator_set_weight
              (pmap_keys (get_validator_set_for_slot b cp.block_slot ns))
              (get_validator_set_for_slot b cp.block_slot ns) * 2) := by
  unfold is_finalized_checkpoint
  by_cases hj : is_justified_checkpoint cp ns = true
  · rw [if_neg (by simp [hj])]
    rcases hb : get_block_from_hash cp.block_hash ns with _ | b
    · simp [hb]
    · simp only [hj, true_and, decide_eq_true_eq]
      constructor
      · intro h
        refine ⟨b, rfl, ?_⟩
        rw [← linking_weight_eq]
        exact h
      · rintro ⟨b2, hb2, h⟩
        obtain rfl : b = b2 := Option.some.inj hb2
        rw [linking_weight_eq]
        exact h
  · rw [if_pos (by simp [hj])]
    simp only [Bool.false_eq_true, false_iff]
    rintro ⟨h, _⟩
    exact hj h

/-! ### View growth and monotonicity (claim C4) -/

/-- View growth: the second state has the same configuration (hence the same
genesis, hashing oracle and stake oracle), every block of the first view under
the same hash, and every vote of the first view. -/
structure view_growth (ns ns' : CommonNodeState) : Prop where
  config_eq : ns.configuration = ns'.configuration
  blocks_mono : ∀ (h : Hash) (b : Block),
    get_block_from_hash h ns = some b → get_block_from_hash h ns' = some b
  votes_mono : ∀ v : SignedVoteMessage, v ∈ ns.view_votes → v ∈ ns'.view_votes

lemma lookup_some_of_mem_fst {α β : Type} [BEq α] [LawfulBEq α] {m : List (α × β)}
    {k : α} (h : k ∈ m.map Prod.fst) : ∃ v, List.lookup k m = some v := by
  induction m with
  | nil => simp at h
  | cons p t ih =>
    obtain ⟨a, w⟩ := p
    by_cases hk : k = a
    · subst hk
      exact ⟨w, by simp [List.lookup]⟩
    · have hmem : k ∈ t.map Prod.fst := by
        simp only [List.map_cons, List.mem_cons] at h
        exact h.resolve_left hk
      obtain ⟨v, hv⟩ := ih hmem
      refine ⟨v, ?_⟩
      have hbeq : (k == a) = false := by simp [hk]
      simp [List.lookup, hbeq, hv]

lemma mem_fst_of_lookup_some {α β : Type} [BEq α] [LawfulBEq α] {m : List (α × β)}
    {k : α} {v : β} (h : List.lookup k m = some v) : k ∈ m.map Prod.fst := by
  induction m with
  | nil => simp [List.lookup] at h
  | cons p t ih =>
    obtain ⟨a, w⟩ := p
    by_cases hk : k = a
    · subst hk
      simp
    · have hbeq : (k == a) = false := by simp [hk]
      simp only [List.lookup, hbeq] at h
      exact List.mem_cons_of_mem _ (ih h)

/-- The fuel bound is monotone under view growth. -/
lemma view_fuel_mono {ns ns' : CommonNodeState} (hg : view_growth ns ns') :
    view_fuel ns ≤ view_fuel ns' := by
  unfold view_fuel
  have hsub : (ns.view_blocks.map Prod.fst).toFinset ⊆
      (ns'.view_blocks.map Prod.fst).toFinset := by
    intro x hx
    rw [List.mem_toFinset] at hx ⊢
    obtain ⟨b, hb⟩ := lookup_some_of_mem_fst hx
    exact mem_fst_of_lookup_some (hg.blocks_mono x b hb)
  exact Nat.add_le_add_right (Finset.card_le_card hsub) 1

lemma genesis_checkpoint_congr {ns ns' : CommonNodeState}
    (hc : ns.configuration = ns'.configuration) :
    genesis_checkpoint ns = genesis_checkpoint ns' := by
  unfold genesis_checkpoint block_hash
  rw [hc]

lemma get_validator_set_for_slot_congr {ns ns' : CommonNodeState}
    (hc : ns.configuration = ns'.configuration) (b : Block) (slot : Nat) :
    get_validator_set_for_slot b slot ns = get_validator_set_for_slot b slot ns' := by
  unfold get_validator_set_for_slot
  rw [hc]

lemma has_block_hash_mono {ns ns' : CommonNodeState} (hg : view_growth ns ns')
    {x : Hash} (h : has_block_hash x ns = true) : has_block_hash x ns' = true := by
  unfold has_block_hash pmap_has at h ⊢
  obtain ⟨b, hb⟩ := Option.isSome_iff_exists.mp h
  have hb' := hg.blocks_mono x b hb
  unfold get_block_from_hash at hb'
  rw [hb']
  rfl

/-- A true complete-chain walk keeps holding at larger fuel. -/
lemma is_complete_chain_fuel_step {ns : CommonNodeState} :
    ∀ (fuel : Nat) (b : Block), is_complete_chain_fuel fuel b ns = true →
      is_complete_chain_fuel (fuel + 1) b ns = true := by
  intro fuel
  induction fuel with
  | zero => intro b h; simp [is_complete_chain_fuel] at h
  | succ fuel ih =>
    intro b h
    simp only [is_complete_chain_fuel] at h ⊢
    by_cases hgen : b = ns.configuration.genesis
    · rw [if_pos hgen]
    · rw [if_neg hgen] at h ⊢
      cases hp : get_parent b ns with
      | none =>
        rw [hp] at h
        exact absurd h (by simp)
      | some p =>
        rw [hp] at h
        exact ih p h

lemma is_complete_chain_fuel_le {ns : CommonNodeState} {f1 f2 : Nat} (hle : f1 ≤ f2) :
    ∀ {b : Block}, is_complete_chain_fuel f1 b ns = true →
      is_complete_chain_fuel f2 b ns = true := by
  induction f2, hle using Nat.le_induction with
  | base => exact fun h => h
  | succ f2 _ ih => exact fun h => is_complete_chain_fuel_step f2 _ (ih h)

/-- A true complete-chain walk transfers to any grown view at the same fuel. -/
lemma is_complete_chain_fuel_mono_view {ns ns' : CommonNodeState}
    (hg : view_growth ns ns') :
    ∀ (fuel : Nat) (b : Block), is_complete_chain_fuel fuel b ns = true →
      is_complete_chain_fuel fuel b ns' = true := by
  intro fuel
  induction fuel with
  | zero => intro b h; simp [is_complete_chain_fuel] at h
  | succ fuel ih =>
    intro b h
    simp only [is_complete_chain_fuel] at h ⊢
    by_cases hgen : b = ns.configuration.genesis
    · rw [if_pos (by rw [← hg.config_eq]; exact hgen)]
    · rw [if_neg hgen] at h
      rw [if_neg (by rw [← hg.config_eq]; exact hgen)]
      cases hp : get_parent b ns with
      | none =>
        rw [hp] at h
        exact absurd h (by simp)
      | some p =>
        rw [hp] at h
        have hp' : get_parent b ns' = some p := hg.blocks_mono _ _ hp
        rw [hp']
        exact ih p h

lemma is_complete_chain_mono {ns ns' : CommonNodeState} (hg : view_growth ns ns')
    {b : Block} (h : is_complete_chain b ns = true) : is_complete_chain b ns' = true := by
  unfold is_complete_chain at h ⊢
  exact is_complete_chain_fuel_le (view_fuel_mono hg)
    (is_complete_chain_fuel_mono_view hg _ b h)

/-- A true ancestor walk keeps holding at larger fuel. -/
lemma is_ancestor_fuel_step {ns : CommonNodeState} :
    ∀ (fuel : Nat) (a d : Block),
      is_ancestor_descendant_relationship_fuel fuel a d ns = true →
      is_ancestor_descendant_relationship_fuel (fuel + 1) a d ns = true := by
  intro fuel
  induction fuel with
  | zero => intro a d h; simp [is_ancestor_descendant_relationship_fuel] at h
  | succ fuel ih =>
    intro a d h
    simp only [is_ancestor_descendant_relationship_fuel] at h ⊢
    by_cases had : a = d
    · rw [if_pos had]
    · rw [if_neg had] at h ⊢
      by_cases hgen : d = ns.configuration.genesis
      · rw [if_pos hgen] at h
        exact absurd h (by simp)
      · rw [if_neg hgen] at h ⊢
        cases hp : get_parent d ns with
        | none =>
          rw [hp] at h
          exact absurd h (by simp)
        | some p =>
          rw [hp] at h
          exact ih a p h

lemma is_ancestor_fuel_le {ns : CommonNodeState} {f1 f2 : Nat} (hle : f1 ≤ f2) :
    ∀ {a d : Block}, is_ancestor_descendant_relationship_fuel f1 a d ns = true →
      is_ancestor_descendant_relationship_fuel f2 a d ns = true := by
  induction f2, hle using Nat.le_induction with
  | base => exact fun h => h
  | succ f2 _ ih => exact fun h => is_ancestor_fuel_step f2 _ _ (ih h)

/-- A true ancestor walk transfers to any grown view at the same fuel. -/
lemma is_ancestor_fuel_mono_view {ns ns' : CommonNodeState} (hg : view_growth ns ns') :
    ∀ (fuel : Nat) (a d : Block),
      is_ancestor_descendant_relationship_fuel fuel a d ns = true →
      is_ancestor_descendant_relationship_fuel fuel a d ns' = true := by
  intro fuel
  induction fuel with
  | zero => intro a d h; simp [is_ancestor_descendant_relationship_fuel] at h
  | succ fuel ih =>
    intro a d h
    simp only [is_ancestor_descendant_relationship_fuel] at h ⊢
    by_cases had : a = d
    · rw [if_pos had]
    · rw [if_neg had] at h ⊢
      by_cases hgen : d = ns.configuration.genesis
      · rw [if_pos hgen] at h
        exact absurd h (by simp)
      · rw [if_neg hgen] at h
        rw [if_neg (by rw [← hg.config_eq]; exact hgen)]
        cases hp : get_parent d ns with
        | none =>
          rw [hp] at h
          exact absurd h (by simp)
        | some p =>
          rw [hp] at h
          have hp' : get_parent d ns' = some p := hg.blocks_mono _ _ hp
          rw [hp']
          exact ih a p h

lemma is_ancestor_descendant_relationship_mono {ns ns' : CommonNodeState}
    (hg : view_growth ns ns') {a d : Block}
    (h : is_ancestor_descendant_relationship a d ns = true) :
    is_ancestor_descendant_relationship a d ns' = true := by
  unfold is_ancestor_descendant_relationship at h ⊢
  exact is_ancestor_fuel_le (view_fuel_mono hg) (is_ancestor_fuel_mono_view hg _ a d h)

/-- valid_FFG_vote is monotone under view growth. -/
lemma valid_FFG_vote_mono {ns ns' : CommonNodeState} (hg : view_growth ns ns')
    {v : SignedVoteMessage} (h : valid_FFG_vote v ns = true) :
    valid_FFG_vote v ns' = true := by
  unfold valid_FFG_vote at h ⊢
  cases hh : get_block_from_hash v.message.head_hash ns with
  | none => rw [hh] at h; exact absurd h (by simp)
  | some head_block =>
    cases hs : get_block_from_hash v.message.ffg_source.block_hash ns with
    | none => rw [hh, hs] at h; exact absurd h (by simp)
    | some source_block =>
      cases ht : get_block_from_hash v.message.ffg_target.block_hash ns with
      | none => rw [hh, hs, ht] at h; exact absurd h (by simp)
      | some target_block =>
        rw [hh, hs, ht] at h
        rw [hg.blocks_mono _ _ hh, hg.blocks_mono _ _ hs, hg.blocks_mono _ _ ht]
        simp only [Bool.and_eq_true] at h
        obtain ⟨⟨⟨⟨⟨⟨⟨hsig, hval⟩, hanc⟩, hlt⟩, hhs⟩, hss⟩, hht⟩, hts⟩ := h
        simp only [Bool.and_eq_true]
        refine ⟨⟨⟨⟨⟨⟨⟨hsig, ?_⟩, ?_⟩, hlt⟩, ?_⟩, hss⟩, ?_⟩, hts⟩
        · rw [← get_validator_set_for_slot_congr hg.config_eq]
          exact hval
        · exact is_ancestor_descendant_relationship_mono hg hanc
        · exact has_block_hash_mono hg hhs
        · exact has_block_hash_mono hg hht

/-- validator_set_weight over a fixed balance map is monotone in the validator
set (balances are non-negative). -/
lemma validator_set_weight_mono {bal : ValidatorBalances} {S T : List NodeIdentity}
    (h : ∀ x, x ∈ S → x ∈ T) :
    validator_set_weight S bal ≤ validator_set_weight T bal := by
  unfold validator_set_weight pset_sum pset_map pset_intersection
  generalize pmap_keys bal = keys
  induction keys with
  | nil => simp
  | cons k t ih =>
    simp only [List.filter_cons]
    by_cases hk : k ∈ S
    · rw [if_pos (by simpa using hk), if_pos (by simpa using h k hk)]
      simp only [List.map_cons, List.sum_cons]
      exact Nat.add_le_add_left ih _
    · rw [if_neg (by simpa using hk)]
      by_cases hk2 : k ∈ T
      · rw [if_pos (by simpa using hk2)]
        simp only [List.map_cons, List.sum_cons]
        exact le_trans ih (Nat.le_add_left _ _)
      · rw [if_neg (by simpa using hk2)]
        exact ih

/-- Ancestor-check matches of the support predicate are monotone under view
growth. -/
lemma support_match_mono {ns ns' : CommonNodeState} (hg : view_growth ns ns')
    {h1 h2 : Hash}
    (h : (match get_block_from_hash h1 ns, get_block_from_hash h2 ns with
          | some a, some b => is_ancestor_descendant_relationship a b ns
          | _, _ => false) = true) :
    (match get_block_from_hash h1 ns', get_block_from_hash h2 ns' with
     | some a, some b => is_ancestor_descendant_relationship a b ns'
     | _, _ => false) = true := by
  cases e1 : get_block_from_hash h1 ns with
  | none => rw [e1] at h; exact absurd h (by simp)
  | some a =>
    cases e2 : get_block_from_hash h2 ns with
    | none => rw [e1, e2] at h; exact absurd h (by simp)
    | some b =>
      rw [e1, e2] at h
      rw [hg.blocks_mono _ _ e1, hg.blocks_mono _ _ e2]
      exact is_ancestor_descendant_relationship_mono hg h

/-- The support predicate is monotone under view growth, given monotonicity of
justification at the strictly smaller source slots. -/
lemma support_pred_mono {ns ns' : CommonNodeState} (hg : view_growth ns ns')
    {v : SignedVoteMessage} {cp : Checkpoint}
    (IH : ∀ c : Checkpoint, c.chkp_slot < cp.chkp_slot →
      is_justified_checkpoint c ns = true → is_justified_checkpoint c ns' = true)
    (h : is_FFG_vote_in_support_of_checkpoint_justification_with
      (fun c => is_justified_checkpoint c ns) v cp ns = true) :
    is_FFG_vote_in_support_of_checkpoint_justification_with
      (fun c => is_justified_checkpoint c ns') v cp ns' = true := by
  unfold is_FFG_vote_in_support_of_checkpoint_justification_with at h ⊢
  simp only [Bool.and_eq_true] at h
  obtain ⟨⟨⟨⟨hval, htgt⟩, hm1⟩, hm2⟩, hjust⟩ := h
  have hlt : v.message.ffg_source.chkp_slot < cp.chkp_slot := by
    have ha := valid_FFG_vote_source_lt_target hval
    have hb : v.message.ffg_target.chkp_slot = cp.chkp_slot := by simpa using htgt
    omega
  simp only [Bool.and_eq_true]
  exact ⟨⟨⟨⟨valid_FFG_vote_mono hg hval, htgt⟩, support_match_mono hg hm1⟩,
    support_match_mono hg hm2⟩, IH _ hlt hjust⟩

/-- One unfolding step of justification monotonicity. -/
lemma is_justified_checkpoint_mono_step {ns ns' : CommonNodeState}
    (hg : view_growth ns ns') {cp : Checkpoint}
    (IH : ∀ c : Checkpoint, c.chkp_slot < cp.chkp_slot →
      is_justified_checkpoint c ns = true → is_justified_checkpoint c ns' = true)
    (h : is_justified_checkpoint cp ns = true) :
    is_justified_checkpoint cp ns' = true := by
  rw [is_justified_checkpoint_unfold] at h
  rw [is_justified_checkpoint_unfold]
  unfold checkpoint_justification_body at h ⊢
  by_cases hgen : cp = genesis_checkpoint ns
  · rw [if_pos (by rw [← genesis_checkpoint_congr hg.config_eq]; exact hgen)]
  · rw [if_neg hgen] at h
    rw [if_neg (by rw [← genesis_checkpoint_congr hg.config_eq]; exact hgen)]
    cases hcb : get_block_from_hash cp.block_hash ns with
    | none => rw [hcb] at h; exact absurd h (by simp)
    | some b =>
      rw [hcb] at h
      rw [hg.blocks_mono _ _ hcb]
      have h2 : checkpoint_justification_weight_ok b cp ns
          (fun c => is_justified_checkpoint c ns) = true := h
      show checkpoint_justification_weight_ok b cp ns'
          (fun c => is_justified_checkpoint c ns') = true
      unfold checkpoint_justification_weight_ok at h2 ⊢
      by_cases hcc : is_complete_chain b ns = true
      · rw [if_neg (by simp [hcc])] at h2
        rw [if_neg (by simp [is_complete_chain_mono hg hcc])]
        rw [← get_validator_set_for_slot_congr hg.config_eq]
        simp only [decide_eq_true_eq] at h2 ⊢
        refine le_trans h2 (Nat.mul_le_mul_right 3 ?_)
        apply validator_set_weight_mono
        intro x hx
        unfold get_validators_in_FFG_support_of_checkpoint_justification_with
          filter_out_FFG_votes_not_in_FFG_support_of_checkpoint_justification_with
          pset_map_to_pset pset_filter at hx ⊢
        simp only [List.mem_dedup, List.mem_map, List.mem_filter] at hx ⊢
        obtain ⟨v, ⟨hvm, hsup⟩, hsend⟩ := hx
        exact ⟨v, ⟨hg.votes_mono v hvm, support_pred_mono hg IH hsup⟩, hsend⟩
      · rw [if_pos hcc] at h2
        exact absurd h2 (by simp)

/-- Justification is monotone under view growth (induction on chkp_slot). -/
lemma is_justified_checkpoint_mono {ns ns' : CommonNodeState}
    (hg : view_growth ns ns') :
    ∀ (n : Nat) (cp : Checkpoint), cp.chkp_slot ≤ n →
      is_justified_checkpoint cp ns = true → is_justified_checkpoint cp ns' = true := by
  intro n
  induction n with
  | zero =>
    intro cp hn h
    exact is_justified_checkpoint_mono_step hg
      (fun c hc _ => absurd hc (by omega)) h
  | succ n ih =>
    intro cp hn h
    exact is_justified_checkpoint_mono_step hg
      (fun c hc hj => ih c (by omega) hj) h

/-- The justified checkpoint set only grows under view growth. -/
lemma get_justified_checkpoints_mono {ns ns' : CommonNodeState}
    (hg : view_growth ns ns') :
    ∀ c ∈ get_justified_checkpoints ns, c ∈ get_justified_checkpoints ns' := by
  intro c hc
  unfold get_justified_checkpoints pset_add filter_out_non_justified_checkpoint
    get_set_FFG_targets pset_filter pset_map_to_pset at hc ⊢
  simp only [List.mem_cons, List.mem_filter, List.mem_dedup, List.mem_map] at hc ⊢
  rcases hc with rfl | ⟨⟨v, hv, htgt⟩, hj⟩
  · exact Or.inl (genesis_checkpoint_congr hg.config_eq)
  · exact Or.inr ⟨⟨v, hg.votes_mono v hv, htgt⟩,
      is_justified_checkpoint_mono hg c.chkp_slot c le_rfl hj⟩

lemma pset_max_by_go {α β : Type} [LinearOrder β] (key : α → β) :
    ∀ (l : List α) (a : α),
      ∃ m, List.foldl (pset_max_step key) (some a) l = some m ∧
        (m = a ∨ m ∈ l) ∧ key a ≤ key m ∧ ∀ x ∈ l, key x ≤ key m := by
  intro l
  induction l with
  | nil =>
    intro a
    exact ⟨a, rfl, Or.inl rfl, le_rfl, by simp⟩
  | cons x t ih =>
    intro a
    rw [List.foldl_cons]
    by_cases hx : key a < key x
    · rw [show pset_max_step key (some a) x = some x from by simp [pset_max_step, hx]]
      obtain ⟨m, hm, hmem, hle, hub⟩ := ih x
      refine ⟨m, hm, ?_, le_trans (le_of_lt hx) hle, ?_⟩
      · rcases hmem with rfl | hmem2
        · exact Or.inr (List.mem_cons_self _ _)
        · exact Or.inr (List.mem_cons_of_mem _ hmem2)
      · intro y hy
        rcases List.mem_cons.mp hy with rfl | hy2
        · exact hle
        · exact hub y hy2
    · rw [show pset_max_step key (some a) x = some a from by simp [pset_max_step, hx]]
      obtain ⟨m, hm, hmem, hle, hub⟩ := ih a
      refine ⟨m, hm, ?_, hle, ?_⟩
      · rcases hmem with rfl | hmem2
        · exact Or.inl rfl
        · exact Or.inr (List.mem_cons_of_mem _ hmem2)
      · intro y hy
        rcases List.mem_cons.mp hy with rfl | hy2
        · exact le_trans (not_lt.mp hx) hle
        · exact hub y hy2

/-- On a nonempty list, pset_max_by returns a member whose key bounds every
element's key. -/
lemma pset_max_by_spec {α β : Type} [LinearOrder β] {l : List α} (key : α → β)
    (h : l ≠ []) :
    ∃ m, pset_max_by l key = some m ∧ m ∈ l ∧ ∀ x ∈ l, key x ≤ key m := by
  cases l with
  | nil => exact absurd rfl h
  | cons a t =>
    unfold pset_max_by
    rw [List.foldl_cons]
    rw [show pset_max_step key none a = some a from rfl]
    obtain ⟨m, hm, hmem, hle, hub⟩ := pset_max_by_go key t a
    refine ⟨m, hm, ?_, ?_⟩
    · rcases hmem with rfl | hmem2
      · exact List.mem_cons_self _ _
      · exact List.mem_cons_of_mem _ hmem2
    · intro x hx
      rcases List.mem_cons.mp hx with rfl | hx2
      · exact hle
      · exact hub x hx2

/-- The greatest justified checkpoint is monotone under view growth in the
lexicographic (chkp_slot, block_slot) order. -/
lemma get_greatest_justified_checkpoint_mono {ns ns' : CommonNodeState}
    (hg : view_growth ns ns') :
    checkpoint_key (get_greatest_justified_checkpoint ns) ≤
      checkpoint_key (get_greatest_justified_checkpoint ns') := by
  have hne : get_justified_checkpoints ns ≠ [] := by
    unfold get_justified_checkpoints pset_add
    exact List.cons_ne_nil _ _
  have hne2 : get_justified_checkpoints ns' ≠ [] := by
    unfold get_justified_checkpoints pset_add
    exact List.cons_ne_nil _ _
  obtain ⟨m, hm, hmem, _⟩ := pset_max_by_spec checkpoint_key hne
  obtain ⟨m2, hm2, _, hub2⟩ := pset_max_by_spec checkpoint_key hne2
  unfold get_greatest_justified_checkpoint
  rw [hm, hm2]
  simp only [Option.getD_some]
  exact hub2 m (get_justified_checkpoints_mono hg m hmem)

/-- C4: the greatest justified checkpoint is monotone under view growth in the
lexicographic (chkp_slot, block_slot) order, and in particular across
execute_view_merge, which (given that the block buffer agrees with the view on
shared hashes, as content-addressing guarantees) only adds blocks and votes. -/
theorem C4_greatest_justified_checkpoint_monotone :
    (∀ ns ns' : CommonNodeState,
      ns.configuration = ns'.configuration →
      (∀ (h : Hash) (b : Block),
        get_block_from_hash h ns = some b → get_block_from_hash h ns' = some b) →
      (∀ v : SignedVoteMessage, v ∈ ns.view_votes → v ∈ ns'.view_votes) →
      checkpoint_key (get_greatest_justified_checkpoint ns) ≤
        checkpoint_key (get_greatest_justified_checkpoint ns')) ∧
    (∀ ns : NodeState,
      (∀ (h : Hash) (b b2 : Block),
        get_block_from_hash h ns.common = some b →
        pmap_get ns.buffer_blocks h = some b2 → b2 = b) →
      checkpoint_key (get_greatest_justified_checkpoint ns.common) ≤
        checkpoint_key (get_greatest_justified_checkpoint (execute_view_merge ns).common)) := by
  constructor
  · intro ns ns' hc hb hv
    exact get_greatest_justified_checkpoint_mono ⟨hc, hb, hv⟩
  · intro ns hagree
    apply get_greatest_justified_checkpoint_mono
    refine ⟨rfl, ?_, ?_⟩
    · intro h b hb
      show get_block_from_hash h (execute_view_merge ns).common = some b
      have hmerged : (execute_view_merge ns).common.view_blocks =
          pmap_merge ns.common.view_blocks ns.buffer_blocks := rfl
      unfold get_block_from_hash at hb ⊢
      rw [hmerged, pmap_get_merge]
      cases hbuf : pmap_get ns.buffer_blocks h with
      | none => simpa [Option.or] using hb
      | some b2 =>
        have hbb : b2 = b := hagree h b b2 hb hbuf
        subst hbb
        rfl
    · intro v hv
      show v ∈ (execute_view_merge ns).common.view_votes
      exact List.mem_append.mpr (Or.inl (List.mem_append.mpr (Or.inl hv)))

/-- Witness for C4: the general monotonicity applied to the concrete state nsA
grown into itself, and the view-merge form applied to the concrete state nsB
(whose buffers are empty). -/
theorem C4_greatest_justified_checkpoint_monotone_witness :
    checkpoint_key (get_greatest_justified_checkpoint nsA) ≤
      checkpoint_key (get_greatest_justified_checkpoint nsA) ∧
    checkpoint_key (get_greatest_justified_checkpoint nsB.common) ≤
      checkpoint_key (get_greatest_justified_checkpoint (execute_view_merge nsB).common) :=
  ⟨C4_greatest_justified_checkpoint_monotone.1 nsA nsA rfl
      (fun _ _ hb => hb) (fun _ hv => hv),
    C4_greatest_justified_checkpoint_monotone.2 nsB
      (fun h b b2 _ hbuf => by simp [nsB, pmap_get, List.lookup] at hbuf)⟩

/-- C10: get_k_deep_slot is claimed to return `max(0, slot - k)`; the Python
body computes that value into a local variable but has no return statement, so
the function returns None on every input. -/
theorem C10_k_deep_slot_never_returns (slot : Nat) :
    get_k_deep_slot slot = none ∧
    (GENESIS_SLOT = 0 ∧ K_DEEP_CONFIRMATION_PARAMETER = 64) :=
  ⟨rfl, rfl, rfl⟩

end TSF
